import Mathlib

set_option maxHeartbeats 1000000

/-!
Shallow embedding of the sitesweep-scanner deep-crawl pipeline
(src/server.js) and proofs about it.

JavaScript runtime built-ins that the crawler calls — the WHATWG URL
constructor, the regex engine, and the live DOM — are modelled as oracle
inputs (`JsEnv`, `PageModel`, `CrawlWorld`).  Every piece of control flow
below is translated from the JavaScript source; JS strings are modelled as
Lean strings, with character-list helpers reproducing the JS string
methods, and a JS Set is modelled as a first-occurrence deduplicated list
(the insertion order of a JS Set).
-/

/-- JavaScript String.startsWith: equality with the leading characters. -/
def jsStartsWith (s pat : String) : Bool :=
  s.data.take pat.data.length == pat.data

/-- JavaScript String.endsWith: equality with the trailing characters. -/
def jsEndsWith (s pat : String) : Bool :=
  s.data.reverse.take pat.data.length == pat.data.reverse

/-- JavaScript String.includes: the pattern occurs somewhere in the string. -/
def jsIncludesAux (pat : List Char) : List Char → Bool
  | [] => pat.isPrefixOf []
  | c :: cs => pat.isPrefixOf (c :: cs) || jsIncludesAux pat cs

def jsIncludes (s pat : String) : Bool :=
  jsIncludesAux pat.data s.data

/-- JavaScript String.trim: strip whitespace from both ends. -/
def jsTrim (s : String) : String :=
  String.mk (((s.data.dropWhile Char.isWhitespace).reverse.dropWhile Char.isWhitespace).reverse)

/-- JavaScript String.toLowerCase, on the character list. -/
def toLowerStr (s : String) : String :=
  String.mk (s.data.map Char.toLower)

/-- JavaScript String.substring 0 n, on the character list. -/
def jsTake (s : String) (n : Nat) : String :=
  String.mk (s.data.take n)

/-- The JS regex replace of one optional trailing slash, url.replace with the
pattern slash-dollar. -/
def stripTrailingSlash (s : String) : String :=
  if jsEndsWith s "/" then String.mk (s.data.dropLast) else s

/-- JS split on the hash character, first component. -/
def hashHead (s : String) : String :=
  String.mk (s.data.takeWhile (fun c => c != '#'))

/-- JS split on the question mark, first component. -/
def queryHead (s : String) : String :=
  String.mk (s.data.takeWhile (fun c => c != '?'))

/-- JavaScript String.replace with a plain-string pattern and empty
replacement: remove the first occurrence of the pattern. -/
def replaceFirstAux (pat : List Char) : List Char → List Char
  | [] => []
  | c :: cs =>
    if pat.isPrefixOf (c :: cs) then (c :: cs).drop pat.length
    else c :: replaceFirstAux pat cs

def replaceFirst (s pat : String) : String :=
  String.mk (replaceFirstAux pat.data s.data)

/-- Number of decimal digit characters: the JS replace of non-digits with
nothing, then length, as used by the phone false-positive filter. -/
def digitCount (s : String) : Nat :=
  (s.data.filter Char.isDigit).length

/-- The JS regex replace of whitespace runs with a single space. -/
def collapseWsAux : Bool → List Char → List Char
  | _, [] => []
  | prevWs, c :: cs =>
    if c.isWhitespace then
      (if prevWs then collapseWsAux true cs else ' ' :: collapseWsAux true cs)
    else c :: collapseWsAux false cs

def collapseWs (s : String) : String :=
  String.mk (collapseWsAux false s.data)

/-- Insertion-ordered JS Set semantics: keep the first occurrence of each
element, in order. -/
def jsSetDedupAux (seen : List String) : List String → List String
  | [] => []
  | x :: xs =>
    if x ∈ seen then jsSetDedupAux seen xs
    else x :: jsSetDedupAux (x :: seen) xs

def jsSetDedup (l : List String) : List String :=
  jsSetDedupAux [] l

/-- Result of the Node or browser URL constructor, as the crawler reads it:
the serialized href, the protocol including the colon, and the hostname. -/
structure JsUrl where
  href : String
  protocol : String
  hostname : String
  deriving DecidableEq, Repr

/-- Oracles for the JavaScript runtime built-ins the crawler calls: the URL
constructor without a base, the URL constructor with a base (returning none
models the constructor throwing), and the two text regexes of
extractEmails and extractPhones applied to body text.  These are external
engines, not repository code; the repository logic applied to their output
is translated below. -/
structure JsEnv where
  parse : String → Option JsUrl
  resolve : String → String → Option JsUrl
  emailMatch : String → List String
  phoneMatch : String → List String

/-- The case-insensitive regex test for an http or https scheme at the
start of the string, from normalizeUrl. -/
def hasHttpScheme (s : String) : Bool :=
  jsStartsWith (toLowerStr s) "http://" || jsStartsWith (toLowerStr s) "https://"

/-- The string normalizeUrl hands to the URL constructor: the trimmed input,
with https prepended when no http or https scheme is present. -/
def withProtocolOf (trimmed : String) : String :=
  if hasHttpScheme trimmed then trimmed else "https://" ++ trimmed

/-- Translation of normalizeUrl from src/server.js: trim, reject empty
input, prepend https when no scheme is present, parse, reject non-http
protocols, otherwise return the parsed URL (href and hostname).  A pure
function of its input and the URL oracle. -/
def normalizeUrl (J : JsEnv) (rawUrl : String) : Except String JsUrl :=
  let trimmed := jsTrim rawUrl
  if trimmed = "" then .error "URL is required"
  else
    match J.parse (withProtocolOf trimmed) with
    | none => .error "Invalid URL. Provide a valid http(s) URL."
    | some url =>
      if url.protocol = "http:" ∨ url.protocol = "https:" then .ok url
      else .error "Only HTTP/HTTPS protocols are allowed."

/-- One call of the in-page addImage helper: the raw url attribute value and
the dimensions and alt text the DOM walk passed along. -/
structure ImgCandidate where
  url : String
  width : Nat
  height : Nat
  alt : String
  deriving DecidableEq, Repr

/-- Entry of the in-page images accumulator, with the precomputed area. -/
structure ImgRec where
  url : String
  alt : String
  width : Nat
  height : Nat
  area : Nat
  deriving DecidableEq, Repr

/-- Entry of the images list extractPageContent returns. -/
structure ImgOut where
  url : String
  alt : String
  width : Nat
  height : Nat
  deriving DecidableEq, Repr

/-- Everything the in-page evaluation reads from the DOM of one loaded
page, as abstract data: the location href (the final, post-redirect URL of
the page), document title, body inner text, the h1/h2/h3 texts in document
order, the inner text of the first matching main-content landmark when one
matches, the stream of addImage calls produced by the DOM walk over img
tags, srcsets, background images and picture sources, the href attributes
of the mailto: and tel: anchors, and the href attributes of all anchors. -/
structure PageModel where
  locationHref : String
  title : String
  bodyText : String
  headingTexts : List String
  mainText : Option String
  imgCandidates : List ImgCandidate
  mailtoHrefs : List String
  telHrefs : List String
  anchorHrefs : List (Option String)
  deriving DecidableEq, Repr

/-- The record extractPageContent returns for one loaded page. -/
structure PageContent where
  url : String
  title : String
  headings : List String
  content : String
  images : List ImgOut
  emails : List String
  phones : List String
  deriving DecidableEq, Repr

/-- The in-page resolveUrl helper: resolve against the current page URL,
returning the input unchanged when the URL constructor throws. -/
def evalResolveUrl (J : JsEnv) (currentPageUrl rel : String) : String :=
  match J.resolve rel currentPageUrl with
  | some u => u.href
  | none => rel

/-- Translation of the in-page addImage helper: reject empty urls, trim,
resolve to absolute against the current page URL, require an http or https
prefix, reject data URIs and svg, reject duplicates, reject images below
50 pixels in either dimension when both dimensions are known, otherwise
append to the accumulator and record the url as seen. -/
def addImage (J : JsEnv) (currentPageUrl : String) (acc : List ImgRec × List String)
    (c : ImgCandidate) : List ImgRec × List String :=
  if c.url = "" then acc
  else
    let u0 := jsTrim c.url
    let u1 := if jsStartsWith u0 "http://" || jsStartsWith u0 "https://" then u0
              else evalResolveUrl J currentPageUrl u0
    if !(jsStartsWith u1 "http://" || jsStartsWith u1 "https://") then acc
    else if jsStartsWith u1 "data:" || jsEndsWith (toLowerStr u1) ".svg" then acc
    else if u1 ∈ acc.2 then acc
    else if c.width > 0 ∧ c.height > 0 ∧ (c.width < 50 ∨ c.height < 50) then acc
    else (acc.1 ++ [⟨u1, c.alt, c.width, c.height, c.width * c.height⟩], acc.2 ++ [u1])

/-- Descending insertion by area. -/
def insertByArea (x : ImgRec) : List ImgRec → List ImgRec
  | [] => [x]
  | y :: ys => if y.area < x.area then x :: y :: ys else y :: insertByArea x ys

/-- Model of Array.prototype.sort with the comparator on areas, b.area
minus a.area: a sort of the list by descending area.  The claims proved
below depend only on the membership of the sorted list. -/
def sortByAreaDesc (l : List ImgRec) : List ImgRec :=
  l.foldr insertByArea []

/-- Translation of the in-page extractEmails helper: the regex matches,
deduplicated. -/
def extractEmails (J : JsEnv) (text : String) : List String :=
  jsSetDedup (J.emailMatch text)

/-- Translation of the in-page extractPhones helper: the regex matches,
filtered to at least eight digits, deduplicated. -/
def extractPhones (J : JsEnv) (text : String) : List String :=
  jsSetDedup ((J.phoneMatch text).filter (fun p => decide (8 ≤ digitCount p)))

/-- Translation of extractPageContent from src/server.js over the page
oracle.  The JavaScript function also receives a baseUrl argument which the
in-page code deliberately ignores, resolving against the current page URL
instead. -/
def extractPageContent (J : JsEnv) (pm : PageModel) : PageContent :=
  let currentPageUrl := pm.locationHref
  let bodyText := pm.bodyText
  let headings := pm.headingTexts.filterMap (fun t =>
    let tt := jsTrim t
    if tt = "" then none else some tt)
  let content0 :=
    match pm.mainText with
    | some t => if t = "" then bodyText else t
    | none => bodyText
  let images := (pm.imgCandidates.foldl (addImage J currentPageUrl) ([], [])).1
  let sortedImages :=
    ((sortByAreaDesc (images.filter (fun i =>
        !(i.url == "") && (jsStartsWith i.url "http://" || jsStartsWith i.url "https://")))).take 10).map
      (fun i => ImgOut.mk i.url i.alt i.width i.height)
  let emails1 := extractEmails J bodyText ++ pm.mailtoHrefs.filterMap (fun h =>
    let e := queryHead (replaceFirst h "mailto:")
    if e = "" then none else some e)
  let phones1 := extractPhones J bodyText ++ pm.telHrefs.filterMap (fun h =>
    let p := jsTrim (replaceFirst h "tel:")
    if p = "" then none else some p)
  { url := currentPageUrl,
    title := jsTrim pm.title,
    headings := headings,
    content := jsTake (jsTrim (collapseWs content0)) 3000,
    images := sortedImages,
    emails := jsSetDedup emails1,
    phones := jsSetDedup phones1 }

/-- The non-content extensions denylist regex of discoverLinks, a
case-insensitive suffix test. -/
def denyExt (s : String) : Bool :=
  jsEndsWith (toLowerStr s) ".pdf" || jsEndsWith (toLowerStr s) ".jpg" ||
  jsEndsWith (toLowerStr s) ".jpeg" || jsEndsWith (toLowerStr s) ".png" ||
  jsEndsWith (toLowerStr s) ".gif" || jsEndsWith (toLowerStr s) ".zip" ||
  jsEndsWith (toLowerStr s) ".rar" || jsEndsWith (toLowerStr s) ".doc" ||
  jsEndsWith (toLowerStr s) ".docx"

/-- Translation of the in-page isInternalUrl helper of discoverLinks:
resolve the candidate against the current page URL and compare hostnames
with the hostname of the current page location. -/
def isInternalJs (J : JsEnv) (currentPageUrl currentHostname testUrl : String) : Bool :=
  match J.resolve testUrl currentPageUrl with
  | some t => t.hostname == currentHostname
  | none => false

/-- The per-anchor body of discoverLinks: skip missing and empty hrefs,
skip fragment, javascript, mailto and tel targets, resolve against the
current page URL, keep same-hostname links only, strip the fragment and one
trailing slash, and reject denylisted extensions. -/
def processAnchor (J : JsEnv) (currentPageUrl currentHostname : String) :
    Option String → Option String
  | none => none
  | some href =>
    if href = "" then none
    else if jsStartsWith href "#" || jsStartsWith href "javascript:" ||
        jsStartsWith href "mailto:" || jsStartsWith href "tel:" then none
    else
      match J.resolve href currentPageUrl with
      | none => none
      | some urec =>
        if isInternalJs J currentPageUrl currentHostname urec.href then
          let cleanUrl := stripTrailingSlash (hashHead urec.href)
          if denyExt cleanUrl then none else some cleanUrl
        else none

/-- The anchor walk of discoverLinks given the parsed location URL. -/
def discoverLinksCore (J : JsEnv) (pm : PageModel) (curUrl : JsUrl) : List String :=
  jsSetDedup (pm.anchorHrefs.filterMap (processAnchor J pm.locationHref curUrl.hostname))

/-- Translation of discoverLinks from src/server.js: none models the
in-page evaluation throwing when the location URL does not parse, which a
real browser never produces. -/
def discoverLinks (J : JsEnv) (pm : PageModel) : Option (List String) :=
  (J.parse pm.locationHref).map (fun curUrl => discoverLinksCore J pm curUrl)

/-- One social link of extractSocials. -/
structure Social where
  platform : String
  url : String
  deriving DecidableEq, Repr

/-- The platform classification chain of extractSocials, on the lowercased
absolute URL, keeping the original absolute URL. -/
def classifySocial (absoluteUrl : String) : Option Social :=
  let href := toLowerStr absoluteUrl
  if jsIncludes href "facebook.com/" && !(jsIncludes href "/sharer") then
    some ⟨"Facebook", absoluteUrl⟩
  else if jsIncludes href "instagram.com/" then some ⟨"Instagram", absoluteUrl⟩
  else if jsIncludes href "linkedin.com/" then some ⟨"LinkedIn", absoluteUrl⟩
  else if jsIncludes href "twitter.com/" || jsIncludes href "x.com/" then
    some ⟨"Twitter", absoluteUrl⟩
  else if jsIncludes href "youtube.com/" || jsIncludes href "youtu.be/" then
    some ⟨"YouTube", absoluteUrl⟩
  else if jsIncludes href "xing.com/" then some ⟨"XING", absoluteUrl⟩
  else none

/-- The final deduplication of extractSocials: first occurrence per url. -/
def dedupSocialAux (seen : List String) : List Social → List Social
  | [] => []
  | s :: rest =>
    if s.url ∈ seen then dedupSocialAux seen rest
    else s :: dedupSocialAux (s.url :: seen) rest

/-- Translation of extractSocials from src/server.js. -/
def extractSocials (J : JsEnv) (pm : PageModel) : List Social :=
  dedupSocialAux [] (pm.anchorHrefs.filterMap (fun h? =>
    match h? with
    | none => none
    | some hrefAttr =>
      if hrefAttr = "" then none
      else
        match J.resolve hrefAttr pm.locationHref with
        | none => none
        | some u => classifySocial u.href))

def MAX_PAGES : Nat := 10

def CONCURRENT_TABS : Nat := 3

def HARVEST_TIMEOUT_MS : Nat := 45000

/-- The crawl environment beyond the DOM of single pages: the raw user
input, the outcome of navigating to the seed (none models seed navigation
failure, some gives the DOM of the loaded, possibly redirected page), the
outcome of navigating to each subpage link (none models per-link navigation
or extraction failure), the value of the elapsed-time read before the k-th
batch, and the elapsed time read when the report is assembled. -/
structure CrawlWorld where
  input : String
  seedNav : Option PageModel
  visit : String → Option PageModel
  elapsedAt : Nat → Nat
  endElapsed : Nat

/-- Entry of the pages list of the final response. -/
structure PageRec where
  url : String
  title : String
  headings : List String
  content : String
  images : List String
  deriving DecidableEq, Repr

/-- The final response of deepCrawl.  crawlDuration is kept as the elapsed
milliseconds; the JavaScript serializes it with an ms suffix. -/
structure CrawlReport where
  domain : String
  globalEmails : List String
  globalPhones : List String
  socials : List Social
  pages : List PageRec
  pagesVisited : Nat
  totalImages : Nat
  crawlDuration : Nat
  deriving DecidableEq, Repr

/-- Step 2 of deepCrawl: deduplicate the discovered links, drop links equal
to baseUrl or to baseUrl with one more trailing slash, and truncate to
MAX_PAGES. -/
def subpageQueue (baseUrl : String) (discoveredLinks : List String) : List String :=
  ((jsSetDedup discoveredLinks).filter
    (fun link => !(link == baseUrl) && !(link == baseUrl ++ "/"))).take MAX_PAGES

/-- Step 3 of deepCrawl: the batch loop.  Before each batch the elapsed
time is read (the counter k numbers the reads) and compared with the global
deadline minus the safety margin; on excess the loop stops, keeping what
was already collected.  Otherwise the next CONCURRENT_TABS (= 3) links —
the JS slice of i to i + 3 — are visited concurrently, each failure
yielding none, and the successes are appended in order; the three remainder
shapes of the slice are spelled out so the recursion is structural. -/
def visitBatchesLoop (J : JsEnv) (w : CrawlWorld) (k : Nat) :
    List String → List PageContent
  | [] => []
  | [a] =>
    if w.elapsedAt k > HARVEST_TIMEOUT_MS - 10000 then []
    else [a].filterMap (fun link => (w.visit link).map (fun pm => extractPageContent J pm))
  | [a, b] =>
    if w.elapsedAt k > HARVEST_TIMEOUT_MS - 10000 then []
    else [a, b].filterMap (fun link => (w.visit link).map (fun pm => extractPageContent J pm))
  | a :: b :: c :: rest =>
    if w.elapsedAt k > HARVEST_TIMEOUT_MS - 10000 then []
    else
      [a, b, c].filterMap (fun link => (w.visit link).map (fun pm => extractPageContent J pm))
        ++ visitBatchesLoop J w (k + 1) rest

/-- The links whose visit deepCrawl actually starts: the batch loop without
the per-link outcomes. -/
def attemptedLinks (w : CrawlWorld) (k : Nat) : List String → List String
  | [] => []
  | [a] => if w.elapsedAt k > HARVEST_TIMEOUT_MS - 10000 then [] else [a]
  | [a, b] => if w.elapsedAt k > HARVEST_TIMEOUT_MS - 10000 then [] else [a, b]
  | a :: b :: c :: rest =>
    if w.elapsedAt k > HARVEST_TIMEOUT_MS - 10000 then []
    else [a, b, c] ++ attemptedLinks w (k + 1) rest

/-- The per-page record of the final response, including the second,
defensive absolute-URL filter on the image urls. -/
def toPageRec (p : PageContent) : PageRec :=
  { url := p.url, title := p.title, headings := p.headings, content := p.content,
    images := (p.images.map (fun img => img.url)).filter
      (fun url => !(url == "") && (jsStartsWith url "http://" || jsStartsWith url "https://")) }

/-- Translation of deepCrawl from src/server.js over the oracle world:
normalize the input, visit the seed, extract the seed content, discover
links, extract socials, build the subpage queue, run the batch loop, and
fold everything into the final report. -/
def deepCrawl (J : JsEnv) (w : CrawlWorld) : Except String CrawlReport :=
  match normalizeUrl J w.input with
  | .error e => .error e
  | .ok targetUrl =>
    match w.seedNav with
    | none => .error "Target site unreachable or timed out."
    | some homePm =>
      let baseUrl := targetUrl.href
      let homeContent := extractPageContent J homePm
      match discoverLinks J homePm with
      | none => .error "Invalid URL in page evaluation"
      | some discoveredLinks =>
        let socials := extractSocials J homePm
        let uniqueLinks := subpageQueue baseUrl discoveredLinks
        let subpageContents := visitBatchesLoop J w 0 uniqueLinks
        let allPages := homeContent :: subpageContents
        .ok {
          domain := targetUrl.hostname,
          globalEmails := jsSetDedup (allPages.flatMap (fun p => p.emails)),
          globalPhones := jsSetDedup (allPages.flatMap (fun p => p.phones)),
          socials := socials,
          pages := allPages.map toPageRec,
          pagesVisited := allPages.length,
          totalImages := allPages.foldl (fun s p => s + p.images.length) 0,
          crawlDuration := w.endElapsed }

/-- The page-content list deepCrawl aggregates when the seed loads: the
seed record followed by the successful subpage records. -/
def crawlPages (J : JsEnv) (w : CrawlWorld) (targetUrl : JsUrl) (homePm : PageModel)
    (curUrl : JsUrl) : List PageContent :=
  extractPageContent J homePm ::
    visitBatchesLoop J w 0 (subpageQueue targetUrl.href (discoverLinksCore J homePm curUrl))

/-- The report deepCrawl returns when the seed loads. -/
def mkReport (J : JsEnv) (w : CrawlWorld) (targetUrl : JsUrl) (homePm : PageModel)
    (curUrl : JsUrl) : CrawlReport :=
  { domain := targetUrl.hostname,
    globalEmails := jsSetDedup ((crawlPages J w targetUrl homePm curUrl).flatMap (fun p => p.emails)),
    globalPhones := jsSetDedup ((crawlPages J w targetUrl homePm curUrl).flatMap (fun p => p.phones)),
    socials := extractSocials J homePm,
    pages := (crawlPages J w targetUrl homePm curUrl).map toPageRec,
    pagesVisited := (crawlPages J w targetUrl homePm curUrl).length,
    totalImages := (crawlPages J w targetUrl homePm curUrl).foldl (fun s p => s + p.images.length) 0,
    crawlDuration := w.endElapsed }


/-- Lookup-table URL resolution used to instantiate the oracle in concrete
test worlds. -/
def tableResolve (t : List (String × String × JsUrl)) (rel base : String) : Option JsUrl :=
  (t.find? (fun e => e.1 == rel && e.2.1 == base)).map (fun e => e.2.2)

/-- Lookup-table URL parsing used to instantiate the oracle in concrete
test worlds. -/
def tableParse (t : List (String × JsUrl)) (s : String) : Option JsUrl :=
  (t.find? (fun e => e.1 == s)).map (fun e => e.2)

/-- The parsed root URL of the test site: the WHATWG constructor serializes
the root with a trailing slash. -/
def urlRoot : JsUrl := ⟨"https://x.com/", "https:", "x.com"⟩

def urlAbout : JsUrl := ⟨"https://x.com/about", "https:", "x.com"⟩

def urlRelPng : JsUrl := ⟨"https://x.com/rel.png", "https:", "x.com"⟩

/-- Oracle for the main concrete witness world. -/
def envW : JsEnv :=
  { parse := tableParse [("https://x.com", urlRoot), ("https://x.com/", urlRoot)],
    resolve := tableResolve
      [("/about", "https://x.com/", urlAbout),
       ("https://x.com/about", "https://x.com/", urlAbout),
       ("/rel.png", "https://x.com/", urlRelPng)],
    emailMatch := fun _ => [],
    phoneMatch := fun _ => [] }

/-- The seed page DOM of the main concrete witness world. -/
def pmHome : PageModel :=
  { locationHref := "https://x.com/",
    title := " Home ",
    bodyText := "contact us",
    headingTexts := [" Welcome "],
    mainText := none,
    imgCandidates := [⟨"https://x.com/a.jpg", 100, 100, "pic"⟩, ⟨"/rel.png", 0, 0, ""⟩],
    mailtoHrefs := ["mailto:a@b"],
    telHrefs := ["tel:123"],
    anchorHrefs := [some "/about"] }

/-- The subpage DOM of the main concrete witness world. -/
def pmAbout : PageModel :=
  { locationHref := "https://x.com/about", title := "About", bodyText := "",
    headingTexts := [], mainText := none, imgCandidates := [], mailtoHrefs := [],
    telHrefs := [], anchorHrefs := [] }

/-- Main concrete witness world: one discovered subpage, visited with
success, no deadline pressure. -/
def worldW : CrawlWorld :=
  { input := "x.com",
    seedNav := some pmHome,
    visit := fun link => if link = "https://x.com/about" then some pmAbout else none,
    elapsedAt := fun _ => 0,
    endElapsed := 7 }

/-- Witness world whose first elapsed-time read already exceeds the
deadline minus the safety margin. -/
def worldW5 : CrawlWorld :=
  { input := "x.com",
    seedNav := some pmHome,
    visit := fun link => if link = "https://x.com/about" then some pmAbout else none,
    elapsedAt := fun _ => 40000,
    endElapsed := 40001 }

/-- Witness world in which the only subpage visit fails. -/
def worldW6 : CrawlWorld :=
  { input := "x.com",
    seedNav := some pmHome,
    visit := fun _ => none,
    elapsedAt := fun _ => 0,
    endElapsed := 9 }

/-- Oracle and world exhibiting the homepage-exclusion slip: the normalized
seed URL is the site root, whose WHATWG href carries a trailing slash, and
the homepage links back to itself with a root-relative anchor. -/
def envC1 : JsEnv :=
  { parse := tableParse [("https://x.com", urlRoot), ("https://x.com/", urlRoot)],
    resolve := tableResolve
      [("/", "https://x.com/", urlRoot),
       ("https://x.com/", "https://x.com/", urlRoot)],
    emailMatch := fun _ => [],
    phoneMatch := fun _ => [] }

def pmC1 : PageModel :=
  { locationHref := "https://x.com/", title := "", bodyText := "", headingTexts := [],
    mainText := none, imgCandidates := [], mailtoHrefs := [], telHrefs := [],
    anchorHrefs := [some "/"] }

def worldC1 : CrawlWorld :=
  { input := "https://x.com",
    seedNav := some pmC1,
    visit := fun link => if link = "https://x.com" then some pmC1 else none,
    elapsedAt := fun _ => 0,
    endElapsed := 3 }

def urlWRoot : JsUrl := ⟨"https://www.x.com/", "https:", "www.x.com"⟩

def urlWAbout : JsUrl := ⟨"https://www.x.com/about", "https:", "www.x.com"⟩

/-- Oracle and page for the redirected seed: the input parses to the x.com
root, but the seed navigation lands on the www.x.com host. -/
def envC7 : JsEnv :=
  { parse := tableParse [("https://x.com", urlRoot), ("https://www.x.com/", urlWRoot)],
    resolve := tableResolve
      [("https://www.x.com/about", "https://www.x.com/", urlWAbout)],
    emailMatch := fun _ => [],
    phoneMatch := fun _ => [] }

def pmC7 : PageModel :=
  { locationHref := "https://www.x.com/", title := "", bodyText := "", headingTexts := [],
    mainText := none, imgCandidates := [], mailtoHrefs := [], telHrefs := [],
    anchorHrefs := [some "https://www.x.com/about"] }

def urlHRoot : JsUrl := ⟨"http://x.com/", "http:", "x.com"⟩

def urlA1 : JsUrl := ⟨"http://x.com/a/#frag", "http:", "x.com"⟩

def urlA2 : JsUrl := ⟨"http://x.com/a", "http:", "x.com"⟩

/-- Oracle and page for the two equivalent link spellings. -/
def envC8 : JsEnv :=
  { parse := tableParse [("http://x.com/", urlHRoot)],
    resolve := tableResolve
      [("http://x.com/a/#frag", "http://x.com/", urlA1),
       ("http://x.com/a", "http://x.com/", urlA2)],
    emailMatch := fun _ => [],
    phoneMatch := fun _ => [] }

def pmC8 : PageModel :=
  { locationHref := "http://x.com/", title := "", bodyText := "", headingTexts := [],
    mainText := none, imgCandidates := [], mailtoHrefs := [], telHrefs := [],
    anchorHrefs := [some "http://x.com/a/#frag", some "http://x.com/a"] }

/-- The scenario oracle: fifteen same-host content links, two links on a
different host, three pdf links, all already absolute, each resolving to
itself. -/
def scenarioUrl (h p : String) : JsUrl := ⟨"https://" ++ h ++ p, "https:", h⟩

def scenarioLinks : List (String × String) :=
  [("x.com", "/p01"), ("x.com", "/p02"), ("x.com", "/p03"), ("x.com", "/p04"),
   ("x.com", "/p05"), ("x.com", "/p06"), ("x.com", "/p07"), ("x.com", "/p08"),
   ("x.com", "/p09"), ("x.com", "/p10"), ("x.com", "/p11"), ("x.com", "/p12"),
   ("x.com", "/p13"), ("x.com", "/p14"), ("x.com", "/p15"),
   ("ext1.com", "/a"), ("ext2.com", "/b"),
   ("x.com", "/f1.pdf"), ("x.com", "/f2.pdf"), ("x.com", "/f3.pdf")]

def envC7w : JsEnv :=
  { parse := tableParse [("https://x.com", urlRoot), ("https://x.com/", urlRoot)],
    resolve := tableResolve (scenarioLinks.map (fun e =>
      ("https://" ++ e.1 ++ e.2, "https://x.com/", scenarioUrl e.1 e.2))),
    emailMatch := fun _ => [],
    phoneMatch := fun _ => [] }

def pmC7w : PageModel :=
  { locationHref := "https://x.com/", title := "", bodyText := "", headingTexts := [],
    mainText := none, imgCandidates := [], mailtoHrefs := [], telHrefs := [],
    anchorHrefs := scenarioLinks.map (fun e => some ("https://" ++ e.1 ++ e.2)) }

theorem deepCrawl_ok (J : JsEnv) (w : CrawlWorld) (targetUrl : JsUrl) (homePm : PageModel)
    (curUrl : JsUrl) (hn : normalizeUrl J w.input = .ok targetUrl)
    (hs : w.seedNav = some homePm) (hp : J.parse homePm.locationHref = some curUrl) :
    deepCrawl J w = .ok (mkReport J w targetUrl homePm curUrl) := by
  simp [deepCrawl, hn, hs, discoverLinks, hp, mkReport, crawlPages]

theorem mem_of_mem_jsSetDedupAux (a : String) (seen l : List String)
    (h : a ∈ jsSetDedupAux seen l) : a ∈ l := by
  induction l generalizing seen with
  | nil => simp [jsSetDedupAux] at h
  | cons x xs ih =>
    rw [jsSetDedupAux] at h
    by_cases hx : x ∈ seen
    · simp only [if_pos hx] at h
      exact List.mem_cons_of_mem x (ih seen h)
    · simp only [if_neg hx] at h
      rcases List.mem_cons.mp h with h1 | h1
      · exact h1 ▸ List.mem_cons_self x xs
      · exact List.mem_cons_of_mem x (ih (x :: seen) h1)

theorem mem_jsSetDedupAux_of_mem (a : String) (seen l : List String)
    (h : a ∈ l) : a ∈ seen ∨ a ∈ jsSetDedupAux seen l := by
  induction l generalizing seen with
  | nil => exact absurd h (List.not_mem_nil a)
  | cons x xs ih =>
    rw [jsSetDedupAux]
    by_cases hx : x ∈ seen
    · simp only [if_pos hx]
      rcases List.mem_cons.mp h with h1 | h1
      · exact Or.inl (h1 ▸ hx)
      · exact ih seen h1
    · simp only [if_neg hx]
      rcases List.mem_cons.mp h with h1 | h1
      · exact Or.inr (h1 ▸ List.mem_cons_self x _)
      · rcases ih (x :: seen) h1 with h2 | h2
        · rcases List.mem_cons.mp h2 with h3 | h3
          · exact Or.inr (h3 ▸ List.mem_cons_self x _)
          · exact Or.inl h3
        · exact Or.inr (List.mem_cons_of_mem x h2)

theorem mem_jsSetDedup (a : String) (l : List String) :
    a ∈ jsSetDedup l ↔ a ∈ l := by
  constructor
  · exact mem_of_mem_jsSetDedupAux a [] l
  · intro h
    rcases mem_jsSetDedupAux_of_mem a [] l h with h1 | h1
    · exact absurd h1 (List.not_mem_nil a)
    · exact h1

theorem visitBatchesLoop_eq_filterMap (J : JsEnv) (w : CrawlWorld) (k : Nat)
    (l : List String) :
    visitBatchesLoop J w k l =
      (attemptedLinks w k l).filterMap
        (fun link => (w.visit link).map (fun pm => extractPageContent J pm)) := by
  induction k, l using attemptedLinks.induct w with
  | case1 k => rfl
  | case2 k a h => rw [visitBatchesLoop, attemptedLinks]; simp [h]
  | case3 k a h => rw [visitBatchesLoop, attemptedLinks]; simp [h]
  | case4 k a b h => rw [visitBatchesLoop, attemptedLinks]; simp [h]
  | case5 k a b h => rw [visitBatchesLoop, attemptedLinks]; simp [h]
  | case6 k a b c rest h => rw [visitBatchesLoop, attemptedLinks]; simp [h]
  | case7 k a b c rest h ih =>
    rw [visitBatchesLoop, attemptedLinks]
    simp only [if_neg h, List.filterMap_append, ih]

theorem attemptedLinks_length_le (w : CrawlWorld) (k : Nat) (l : List String) :
    (attemptedLinks w k l).length ≤ l.length := by
  induction k, l using attemptedLinks.induct w with
  | case1 k => simp [attemptedLinks]
  | case2 k a h => rw [attemptedLinks]; simp [h]
  | case3 k a h => rw [attemptedLinks]; simp [h]
  | case4 k a b h => rw [attemptedLinks]; simp [h]
  | case5 k a b h => rw [attemptedLinks]; simp [h]
  | case6 k a b c rest h => rw [attemptedLinks]; simp [h]
  | case7 k a b c rest h ih =>
    rw [attemptedLinks]
    simp only [if_neg h, List.length_append, List.length_cons, List.length_nil]
    omega

theorem attemptedLinks_subset (w : CrawlWorld) (k : Nat) (l : List String) :
    ∀ a ∈ attemptedLinks w k l, a ∈ l := by
  induction k, l using attemptedLinks.induct w with
  | case1 k => simp [attemptedLinks]
  | case2 k a h => rw [attemptedLinks]; simp [h]
  | case3 k a h => rw [attemptedLinks]; simp [h]
  | case4 k a b h => rw [attemptedLinks]; simp [h]
  | case5 k a b h =>
    rw [attemptedLinks]
    simp only [if_neg h]
    intro x hx
    simpa using hx
  | case6 k a b c rest h => rw [attemptedLinks]; simp [h]
  | case7 k a b c rest h ih =>
    rw [attemptedLinks]
    simp only [if_neg h]
    intro x hx
    rcases List.mem_append.mp hx with h1 | h1
    · rcases List.mem_cons.mp h1 with h2 | h210
      · simp [h2]
      · rcases List.mem_cons.mp h210 with h3 | h310
        · simp [h3]
        · rcases List.mem_cons.mp h310 with h4 | h410
          · simp [h4]
          · simp at h410
    · have h5 := ih x h1
      simp [h5]

theorem filterMap_visit_length (w : CrawlWorld) (g : PageModel → PageContent)
    (l : List String) :
    (l.filterMap (fun link => (w.visit link).map g)).length
      = (l.filter (fun link => (w.visit link).isSome)).length := by
  induction l with
  | nil => simp
  | cons x xs ih =>
    cases hx : w.visit x with
    | none => simp [List.filterMap_cons, List.filter_cons, hx, ih]
    | some pm => simp [List.filterMap_cons, List.filter_cons, hx, ih]

theorem mem_insertByArea (a x : ImgRec) (l : List ImgRec) :
    a ∈ insertByArea x l ↔ a = x ∨ a ∈ l := by
  induction l with
  | nil => simp [insertByArea]
  | cons y ys ih =>
    rw [insertByArea]
    by_cases hy : y.area < x.area
    · simp [if_pos hy, List.mem_cons]
    · simp only [if_neg hy, List.mem_cons, ih]
      tauto

theorem mem_sortByAreaDesc (a : ImgRec) (l : List ImgRec) :
    a ∈ sortByAreaDesc l ↔ a ∈ l := by
  induction l with
  | nil => simp [sortByAreaDesc]
  | cons y ys ih =>
    simp only [sortByAreaDesc, List.foldr_cons] at ih ⊢
    rw [mem_insertByArea, ih, List.mem_cons]

theorem subpageQueue_length_le (baseUrl : String) (d : List String) :
    (subpageQueue baseUrl d).length ≤ MAX_PAGES :=
  List.length_take_le MAX_PAGES _

theorem subpageQueue_subset (baseUrl : String) (d : List String) :
    ∀ a ∈ subpageQueue baseUrl d, a ∈ d := by
  intro a ha
  have h1 := List.mem_of_mem_take ha
  have h2 := List.mem_of_mem_filter h1
  exact (mem_jsSetDedup a d).mp h2

theorem http_prefix_not_data (u : String)
    (h : (jsStartsWith u "http://" || jsStartsWith u "https://") = true) :
    jsStartsWith u "data:" = false := by
  rcases Bool.or_eq_true_iff.mp h with h1 | h1
  · have h2 : u.data.take 7 = "http://".data := by
      simp only [jsStartsWith] at h1
      have h5 := beq_iff_eq.mp h1
      simpa using h5
    have h3 : u.data.take 5 = "http:".data := by
      have h4 : u.data.take 5 = (u.data.take 7).take 5 := by
        rw [List.take_take]; norm_num
      rw [h4, h2]; decide
    simp only [jsStartsWith]
    rw [show ("data:".data.length) = 5 by decide, h3]
    decide
  · have h2 : u.data.take 8 = "https://".data := by
      simp only [jsStartsWith] at h1
      have h5 := beq_iff_eq.mp h1
      simpa using h5
    have h3 : u.data.take 5 = "https".data := by
      have h4 : u.data.take 5 = (u.data.take 8).take 5 := by
        rw [List.take_take]; norm_num
      rw [h4, h2]; decide
    simp only [jsStartsWith]
    rw [show ("data:".data.length) = 5 by decide, h3]
    decide

theorem visitBatchesLoop_length_le (J : JsEnv) (w : CrawlWorld) (k : Nat)
    (l : List String) : (visitBatchesLoop J w k l).length ≤ l.length := by
  rw [visitBatchesLoop_eq_filterMap]
  exact le_trans (List.length_filterMap_le _ _) (attemptedLinks_length_le w k l)

theorem visitBatchesLoop_nil_of_elapsed (J : JsEnv) (w : CrawlWorld) (k : Nat)
    (l : List String) (hk : w.elapsedAt k > HARVEST_TIMEOUT_MS - 10000) :
    visitBatchesLoop J w k l = [] := by
  rcases l with _ | ⟨a, _ | ⟨b, _ | ⟨c, rest⟩⟩⟩
  · rfl
  · rw [visitBatchesLoop]; simp [hk]
  · rw [visitBatchesLoop]; simp [hk]
  · rw [visitBatchesLoop]; simp [hk]

theorem processAnchor_eq_some (J : JsEnv) (cur curHost : String) (h? : Option String)
    (l : String) (h : processAnchor J cur curHost h? = some l) :
    ∃ href urec t, h? = some href ∧ J.resolve href cur = some urec ∧
      J.resolve urec.href cur = some t ∧ t.hostname = curHost ∧
      l = stripTrailingSlash (hashHead urec.href) ∧ denyExt l = false := by
  cases h? with
  | none => simp [processAnchor] at h
  | some href =>
    rw [processAnchor] at h
    by_cases h1 : href = ""
    · rw [if_pos h1] at h; exact absurd h (by simp)
    rw [if_neg h1] at h
    by_cases h2 : (jsStartsWith href "#" || jsStartsWith href "javascript:" ||
        jsStartsWith href "mailto:" || jsStartsWith href "tel:") = true
    · rw [if_pos h2] at h; exact absurd h (by simp)
    rw [if_neg h2] at h
    cases hres : J.resolve href cur with
    | none => rw [hres] at h; exact absurd h (by simp)
    | some urec =>
      rw [hres] at h
      dsimp only at h
      by_cases h3 : isInternalJs J cur curHost urec.href = true
      · rw [if_pos h3] at h
        by_cases h4 : denyExt (stripTrailingSlash (hashHead urec.href)) = true
        · rw [if_pos h4] at h; exact absurd h (by simp)
        · rw [if_neg h4] at h
          have h5 : l = stripTrailingSlash (hashHead urec.href) := (Option.some.inj h).symm
          rw [isInternalJs] at h3
          cases hres2 : J.resolve urec.href cur with
          | none => rw [hres2] at h3; simp at h3
          | some t =>
            rw [hres2] at h3
            have h6 : t.hostname = curHost := by simpa using h3
            refine ⟨href, urec, t, rfl, hres, hres2, h6, h5, ?_⟩
            rw [h5]
            exact Bool.not_eq_true _ ▸ (by simpa using h4)
      · rw [if_neg h3] at h
        exact absurd h (by simp)

/-- C2: for every crawl whose seed page loads successfully, the report has
at least 1 page (the seed record) and at most 1 + MAX_PAGES = 11 pages,
because the subpage queue is truncated to MAX_PAGES entries before any
visiting starts. -/
theorem crawl_report_pages_bounded (J : JsEnv) (w : CrawlWorld) (targetUrl : JsUrl)
    (homePm : PageModel) (curUrl : JsUrl)
    (hn : normalizeUrl J w.input = .ok targetUrl)
    (hs : w.seedNav = some homePm)
    (hp : J.parse homePm.locationHref = some curUrl) :
    ∃ r, deepCrawl J w = .ok r ∧ 1 ≤ r.pages.length ∧ r.pages.length ≤ 1 + MAX_PAGES ∧
      1 + MAX_PAGES = 11 := by
  refine ⟨mkReport J w targetUrl homePm curUrl,
    deepCrawl_ok J w targetUrl homePm curUrl hn hs hp, ?_, ?_, by decide⟩
  · simp only [mkReport, List.length_map, crawlPages, List.length_cons]
    omega
  · have h1 := visitBatchesLoop_length_le J w 0
      (subpageQueue targetUrl.href (discoverLinksCore J homePm curUrl))
    have h2 := subpageQueue_length_le targetUrl.href (discoverLinksCore J homePm curUrl)
    simp only [mkReport, List.length_map, crawlPages, List.length_cons]
    omega

theorem crawl_report_pages_bounded_witness :
    normalizeUrl envW worldW.input = .ok urlRoot ∧
    (∃ r, deepCrawl envW worldW = .ok r ∧ 1 ≤ r.pages.length ∧
      r.pages.length ≤ 1 + MAX_PAGES ∧ 1 + MAX_PAGES = 11) :=
  ⟨rfl, crawl_report_pages_bounded envW worldW urlRoot pmHome urlRoot rfl rfl rfl⟩

/-- C4: pagesVisited equals the number of PageContent records actually
produced — the seed record plus one record for each attempted subpage whose
visit succeeded — not the number of visits attempted; failed visits yield
none and are filtered out before counting. -/
theorem pages_visited_equals_produced (J : JsEnv) (w : CrawlWorld) (targetUrl : JsUrl)
    (homePm : PageModel) (curUrl : JsUrl)
    (hn : normalizeUrl J w.input = .ok targetUrl)
    (hs : w.seedNav = some homePm)
    (hp : J.parse homePm.locationHref = some curUrl) :
    ∃ r, deepCrawl J w = .ok r ∧ r.pagesVisited = r.pages.length ∧
      r.pagesVisited = 1 +
        ((attemptedLinks w 0 (subpageQueue targetUrl.href
            (discoverLinksCore J homePm curUrl))).filter
          (fun link => (w.visit link).isSome)).length := by
  refine ⟨mkReport J w targetUrl homePm curUrl,
    deepCrawl_ok J w targetUrl homePm curUrl hn hs hp, ?_, ?_⟩
  · simp only [mkReport, crawlPages, List.length_map]
  · simp only [mkReport, crawlPages, List.length_cons]
    rw [visitBatchesLoop_eq_filterMap, filterMap_visit_length]
    omega

theorem pages_visited_equals_produced_witness :
    normalizeUrl envW worldW.input = .ok urlRoot ∧
    (∃ r, deepCrawl envW worldW = .ok r ∧ r.pagesVisited = r.pages.length ∧
      r.pagesVisited = 1 +
        ((attemptedLinks worldW 0 (subpageQueue urlRoot.href
            (discoverLinksCore envW pmHome urlRoot))).filter
          (fun link => (worldW.visit link).isSome)).length) :=
  ⟨rfl, pages_visited_equals_produced envW worldW urlRoot pmHome urlRoot rfl rfl rfl⟩

/-- C5: if the first elapsed-time read already exceeds
HARVEST_TIMEOUT_MS - 10000, no subpage batch is issued and the crawl still
succeeds with exactly the seed page and pagesVisited = 1; in general the
check runs before every batch and an exceeded check empties the remaining
loop, keeping everything already aggregated. -/
theorem deadline_preempts_batches (J : JsEnv) (w : CrawlWorld) (targetUrl : JsUrl)
    (homePm : PageModel) (curUrl : JsUrl)
    (hn : normalizeUrl J w.input = .ok targetUrl)
    (hs : w.seedNav = some homePm)
    (hp : J.parse homePm.locationHref = some curUrl)
    (ht : w.elapsedAt 0 > HARVEST_TIMEOUT_MS - 10000) :
    (∃ r, deepCrawl J w = .ok r ∧ r.pages = [toPageRec (extractPageContent J homePm)] ∧
      r.pagesVisited = 1) ∧
    ∀ k l, w.elapsedAt k > HARVEST_TIMEOUT_MS - 10000 → visitBatchesLoop J w k l = [] := by
  constructor
  · refine ⟨mkReport J w targetUrl homePm curUrl,
      deepCrawl_ok J w targetUrl homePm curUrl hn hs hp, ?_, ?_⟩
    · simp only [mkReport, crawlPages, visitBatchesLoop_nil_of_elapsed J w 0 _ ht,
        List.map_cons, List.map_nil]
    · simp only [mkReport, crawlPages, visitBatchesLoop_nil_of_elapsed J w 0 _ ht,
        List.length_cons, List.length_nil]
  · exact fun k l hk => visitBatchesLoop_nil_of_elapsed J w k l hk

theorem deadline_preempts_batches_witness :
    worldW5.elapsedAt 0 > HARVEST_TIMEOUT_MS - 10000 ∧
    ((∃ r, deepCrawl envW worldW5 = .ok r ∧
        r.pages = [toPageRec (extractPageContent envW pmHome)] ∧ r.pagesVisited = 1) ∧
      ∀ k l, worldW5.elapsedAt k > HARVEST_TIMEOUT_MS - 10000 →
        visitBatchesLoop envW worldW5 k l = []) :=
  ⟨by decide, deadline_preempts_batches envW worldW5 urlRoot pmHome urlRoot rfl rfl rfl
    (by decide)⟩

/-- C6: a failed subpage visit contributes zero entries to pages, never
surfaces an error to the caller (the crawl still returns ok), and the other
attempted links each contribute their own records independently: the pages
list is exactly the seed record followed by the per-link filterMap of the
visit outcomes, and the failed link is never counted among the successes. -/
theorem subpage_failure_invisible (J : JsEnv) (w : CrawlWorld) (targetUrl : JsUrl)
    (homePm : PageModel) (curUrl : JsUrl) (link : String)
    (hn : normalizeUrl J w.input = .ok targetUrl)
    (hs : w.seedNav = some homePm)
    (hp : J.parse homePm.locationHref = some curUrl)
    (hfail : w.visit link = none) :
    ∃ r, deepCrawl J w = .ok r ∧
      r.pages = toPageRec (extractPageContent J homePm) ::
        (attemptedLinks w 0 (subpageQueue targetUrl.href
            (discoverLinksCore J homePm curUrl))).filterMap
          (fun l2 => (w.visit l2).map (fun pm => toPageRec (extractPageContent J pm))) ∧
      link ∉ (attemptedLinks w 0 (subpageQueue targetUrl.href
            (discoverLinksCore J homePm curUrl))).filter
          (fun l2 => (w.visit l2).isSome) := by
  refine ⟨mkReport J w targetUrl homePm curUrl,
    deepCrawl_ok J w targetUrl homePm curUrl hn hs hp, ?_, ?_⟩
  · simp only [mkReport, crawlPages, List.map_cons]
    rw [visitBatchesLoop_eq_filterMap, List.map_filterMap]
    simp only [Option.map_map]
    rfl
  · intro hmem
    have h1 := List.of_mem_filter hmem
    rw [hfail] at h1
    simp at h1

theorem subpage_failure_invisible_witness :
    worldW6.visit "https://x.com/about" = none ∧
    (∃ r, deepCrawl envW worldW6 = .ok r ∧
      r.pages = toPageRec (extractPageContent envW pmHome) ::
        (attemptedLinks worldW6 0 (subpageQueue urlRoot.href
            (discoverLinksCore envW pmHome urlRoot))).filterMap
          (fun l2 => (worldW6.visit l2).map (fun pm => toPageRec (extractPageContent envW pm))) ∧
      "https://x.com/about" ∉ (attemptedLinks worldW6 0 (subpageQueue urlRoot.href
            (discoverLinksCore envW pmHome urlRoot))).filter
          (fun l2 => (worldW6.visit l2).isSome)) :=
  ⟨rfl, subpage_failure_invisible envW worldW6 urlRoot pmHome urlRoot "https://x.com/about"
    rfl rfl rfl rfl⟩

theorem extract_images_http (J : JsEnv) (pm : PageModel) (img : ImgOut)
    (h : img ∈ (extractPageContent J pm).images) :
    (jsStartsWith img.url "http://" || jsStartsWith img.url "https://") = true := by
  simp only [extractPageContent] at h
  obtain ⟨i, hi, heq⟩ := List.mem_map.mp h
  have h2 := List.mem_of_mem_take hi
  have h3 := (mem_sortByAreaDesc i _).mp h2
  have h4 := (List.mem_filter.mp h3).2
  rw [Bool.and_eq_true] at h4
  rw [← heq]
  exact h4.2

theorem deepCrawl_pages_shape (J : JsEnv) (w : CrawlWorld) (r : CrawlReport)
    (hr : deepCrawl J w = .ok r) :
    ∃ pcs : List PageContent, r.pages = pcs.map toPageRec := by
  unfold deepCrawl at hr
  cases hnorm : normalizeUrl J w.input with
  | error e => rw [hnorm] at hr; exact absurd hr (by simp)
  | ok targetUrl =>
    rw [hnorm] at hr
    dsimp only at hr
    cases hseed : w.seedNav with
    | none => rw [hseed] at hr; exact absurd hr (by simp)
    | some homePm =>
      rw [hseed] at hr
      dsimp only at hr
      cases hdisc : discoverLinks J homePm with
      | none => rw [hdisc] at hr; exact absurd hr (by simp)
      | some dl =>
        rw [hdisc] at hr
        dsimp only at hr
        refine ⟨extractPageContent J homePm ::
          visitBatchesLoop J w 0 (subpageQueue targetUrl.href dl), ?_⟩
        have h1 := Except.ok.inj hr
        rw [← h1]

/-- C3: every URL in any images list of any page record of any completed
crawl report starts with http or https — so it is absolute and is neither a
relative path nor a data URI — and the same already holds for the images
extractPageContent itself produces, so the report-assembly filter is a
second, independent guard. -/
theorem report_image_urls_absolute (J : JsEnv) (w : CrawlWorld) (r : CrawlReport)
    (p : PageRec) (u : String)
    (hr : deepCrawl J w = .ok r) (hpr : p ∈ r.pages) (hu : u ∈ p.images) :
    ((jsStartsWith u "http://" || jsStartsWith u "https://") = true ∧
      jsStartsWith u "data:" = false) ∧
    ∀ pm img, img ∈ (extractPageContent J pm).images →
      (jsStartsWith img.url "http://" || jsStartsWith img.url "https://") = true ∧
      jsStartsWith img.url "data:" = false := by
  constructor
  · obtain ⟨pcs, hpcs⟩ := deepCrawl_pages_shape J w r hr
    rw [hpcs] at hpr
    obtain ⟨pc, _, hpeq⟩ := List.mem_map.mp hpr
    rw [← hpeq] at hu
    simp only [toPageRec] at hu
    have h4 := (List.mem_filter.mp hu).2
    rw [Bool.and_eq_true] at h4
    exact ⟨h4.2, http_prefix_not_data u h4.2⟩
  · intro pm img h
    have h1 := extract_images_http J pm img h
    exact ⟨h1, http_prefix_not_data _ h1⟩

theorem report_image_urls_absolute_witness :
    deepCrawl envW worldW = .ok
      ⟨"x.com", ["a@b"], ["123"], [⟨"Twitter", "https://x.com/about"⟩],
        [⟨"https://x.com/", "Home", ["Welcome"], "contact us",
            ["https://x.com/a.jpg", "https://x.com/rel.png"]⟩,
          ⟨"https://x.com/about", "About", [], "", []⟩], 2, 2, 7⟩ ∧
    ((jsStartsWith "https://x.com/a.jpg" "http://"
        || jsStartsWith "https://x.com/a.jpg" "https://") = true ∧
      jsStartsWith "https://x.com/a.jpg" "data:" = false) :=
  ⟨rfl,
    (report_image_urls_absolute envW worldW
      ⟨"x.com", ["a@b"], ["123"], [⟨"Twitter", "https://x.com/about"⟩],
        [⟨"https://x.com/", "Home", ["Welcome"], "contact us",
            ["https://x.com/a.jpg", "https://x.com/rel.png"]⟩,
          ⟨"https://x.com/about", "About", [], "", []⟩], 2, 2, 7⟩
      ⟨"https://x.com/", "Home", ["Welcome"], "contact us",
        ["https://x.com/a.jpg", "https://x.com/rel.png"]⟩
      "https://x.com/a.jpg" rfl (by decide) (by decide)).1⟩

/-- C1 (code bug): with the seed input https colon slash slash x.com, whose
normalized href carries a trailing slash, a homepage anchor back to the
root survives the homepage-exclusion filter, because discovered links are
stored with the trailing slash stripped while the filter only removes the
exact baseUrl and baseUrl plus one more slash.  The subpage queue therefore
contains the seed page under its slash-stripped spelling and the crawl
visits the homepage twice. -/
theorem seed_reappears_in_queue_bug :
    normalizeUrl envC1 worldC1.input = .ok urlRoot ∧
    discoverLinks envC1 pmC1 = some ["https://x.com"] ∧
    subpageQueue urlRoot.href ["https://x.com"] = ["https://x.com"] ∧
    stripTrailingSlash urlRoot.href = "https://x.com" ∧
    (deepCrawl envC1 worldC1).map
        (fun r => (r.pagesVisited, r.pages.map (fun p => p.url)))
      = .ok (2, ["https://x.com/", "https://x.com/"]) :=
  ⟨rfl, rfl, rfl, rfl, rfl⟩

/-- C7 counterexample: when the seed navigation redirects to another host,
discovery compares hostnames against the final location host, not the
crawl-target host: the crawl target parses to hostname x.com, yet a link
with hostname www.x.com survives discovery and enters the subpage queue. -/
theorem discovery_host_counterexample :
    normalizeUrl envC7 "https://x.com" = .ok urlRoot ∧
    discoverLinks envC7 pmC7 = some ["https://www.x.com/about"] ∧
    subpageQueue urlRoot.href ["https://www.x.com/about"] = ["https://www.x.com/about"] ∧
    envC7.resolve "https://www.x.com/about" pmC7.locationHref = some urlWAbout ∧
    urlWAbout.hostname ≠ urlRoot.hostname :=
  ⟨rfl, rfl, rfl, rfl, by decide⟩

/-- C7 (amended): every link in the subpage queue arises from an anchor
whose resolved URL has the hostname of the seed page final location — which
is the crawl-target hostname whenever the seed does not redirect — with the
fragment and one trailing slash stripped and no denylisted extension, and
the queue never exceeds MAX_PAGES entries. -/
theorem discovery_same_host_and_bounded (J : JsEnv) (pm : PageModel) (curUrl : JsUrl)
    (baseUrl : String) (links : List String)
    (hp : J.parse pm.locationHref = some curUrl)
    (hd : discoverLinks J pm = some links) :
    (∀ l ∈ subpageQueue baseUrl links,
      ∃ abs t, J.resolve abs pm.locationHref = some t ∧ t.hostname = curUrl.hostname ∧
        l = stripTrailingSlash (hashHead abs) ∧ denyExt l = false) ∧
    (subpageQueue baseUrl links).length ≤ MAX_PAGES := by
  have hlinks : links = discoverLinksCore J pm curUrl := by
    rw [discoverLinks, hp] at hd
    exact (Option.some.inj hd).symm
  refine ⟨?_, subpageQueue_length_le _ _⟩
  intro l hl
  have h1 := subpageQueue_subset baseUrl links l hl
  rw [hlinks, discoverLinksCore, mem_jsSetDedup] at h1
  obtain ⟨ho, hmem, hproc⟩ := List.mem_filterMap.mp h1
  obtain ⟨href, urec, t, _, hres, hres2, hhost, heq, hdeny⟩ :=
    processAnchor_eq_some J pm.locationHref curUrl.hostname ho l hproc
  exact ⟨urec.href, t, hres2, hhost, heq, hdeny⟩

theorem discovery_same_host_and_bounded_witness :
    (subpageQueue "https://x.com/"
        ["https://x.com/p01", "https://x.com/p02", "https://x.com/p03", "https://x.com/p04",
         "https://x.com/p05", "https://x.com/p06", "https://x.com/p07", "https://x.com/p08",
         "https://x.com/p09", "https://x.com/p10", "https://x.com/p11", "https://x.com/p12",
         "https://x.com/p13", "https://x.com/p14", "https://x.com/p15"]).length ≤ MAX_PAGES ∧
    subpageQueue "https://x.com/"
        ["https://x.com/p01", "https://x.com/p02", "https://x.com/p03", "https://x.com/p04",
         "https://x.com/p05", "https://x.com/p06", "https://x.com/p07", "https://x.com/p08",
         "https://x.com/p09", "https://x.com/p10", "https://x.com/p11", "https://x.com/p12",
         "https://x.com/p13", "https://x.com/p14", "https://x.com/p15"]
      = ["https://x.com/p01", "https://x.com/p02", "https://x.com/p03", "https://x.com/p04",
         "https://x.com/p05", "https://x.com/p06", "https://x.com/p07", "https://x.com/p08",
         "https://x.com/p09", "https://x.com/p10"] :=
  ⟨(discovery_same_host_and_bounded envC7w pmC7w urlRoot "https://x.com/"
      ["https://x.com/p01", "https://x.com/p02", "https://x.com/p03", "https://x.com/p04",
       "https://x.com/p05", "https://x.com/p06", "https://x.com/p07", "https://x.com/p08",
       "https://x.com/p09", "https://x.com/p10", "https://x.com/p11", "https://x.com/p12",
       "https://x.com/p13", "https://x.com/p14", "https://x.com/p15"] rfl rfl).2, rfl⟩

/-- C8: two anchors spelling the same page with a fragment and a trailing
slash, http colon slash slash x.com slash a slash hash frag and the bare
variant, normalize to one canonical link that appears exactly once in the
discovered set. -/
theorem link_normalization_dedup (J : JsEnv) (pm : PageModel)
    (ha : pm.anchorHrefs = [some "http://x.com/a/#frag", some "http://x.com/a"])
    (hloc : pm.locationHref = "http://x.com/")
    (hp : J.parse "http://x.com/" = some urlHRoot)
    (h1 : J.resolve "http://x.com/a/#frag" "http://x.com/" = some urlA1)
    (h2 : J.resolve "http://x.com/a" "http://x.com/" = some urlA2) :
    discoverLinks J pm = some ["http://x.com/a"] ∧
    stripTrailingSlash (hashHead "http://x.com/a/#frag")
      = stripTrailingSlash (hashHead "http://x.com/a") := by
  have hA : processAnchor J "http://x.com/" "x.com" (some "http://x.com/a/#frag")
      = some "http://x.com/a" := by
    rw [processAnchor]
    rw [if_neg (by decide), if_neg (by decide), h1]
    dsimp only [urlA1]
    simp only [isInternalJs]
    simp only [h1]
    dsimp only [urlA1]
    decide
  have hB : processAnchor J "http://x.com/" "x.com" (some "http://x.com/a")
      = some "http://x.com/a" := by
    rw [processAnchor]
    rw [if_neg (by decide), if_neg (by decide), h2]
    dsimp only [urlA2]
    simp only [isInternalJs]
    simp only [h2]
    dsimp only [urlA2]
    decide
  constructor
  · rw [discoverLinks, hloc, hp]
    dsimp only [Option.map, urlHRoot]
    rw [discoverLinksCore, ha, hloc]
    dsimp only [urlHRoot]
    simp only [List.filterMap_cons, List.filterMap_nil, hA, hB]
    decide
  · decide

theorem link_normalization_dedup_witness :
    discoverLinks envC8 pmC8 = some ["http://x.com/a"] ∧
    stripTrailingSlash (hashHead "http://x.com/a/#frag")
      = stripTrailingSlash (hashHead "http://x.com/a") :=
  link_normalization_dedup envC8 pmC8 rfl rfl rfl rfl rfl

/-- C9: the URL normalizer trims surrounding whitespace and fails with the
InvalidInput error exactly when the trimmed string is empty; otherwise it
prepends https exactly when no case-insensitive http or https scheme is
present, and fails with one of the two InvalidURL-class errors exactly when
the prepared string does not parse or parses with a non-http protocol;
otherwise it returns the parsed URL, which carries the validated href and
hostname.  It is a pure function, so it has no side effects. -/
theorem normalize_url_characterization (J : JsEnv) (raw : String) :
    (normalizeUrl J raw = .error "URL is required" ↔ jsTrim raw = "") ∧
    ((∃ e, normalizeUrl J raw = .error e ∧
        (e = "Invalid URL. Provide a valid http(s) URL." ∨
          e = "Only HTTP/HTTPS protocols are allowed.")) ↔
      (jsTrim raw ≠ "" ∧
        (J.parse (withProtocolOf (jsTrim raw)) = none ∨
          ∃ u, J.parse (withProtocolOf (jsTrim raw)) = some u ∧
            u.protocol ≠ "http:" ∧ u.protocol ≠ "https:"))) ∧
    (∀ u, normalizeUrl J raw = .ok u ↔
      (jsTrim raw ≠ "" ∧ J.parse (withProtocolOf (jsTrim raw)) = some u ∧
        (u.protocol = "http:" ∨ u.protocol = "https:"))) := by
  by_cases h0 : jsTrim raw = ""
  · simp only [normalizeUrl, if_pos h0]
    refine ⟨⟨fun _ => h0, fun _ => by simp⟩, ?_, ?_⟩
    · constructor
      · rintro ⟨e, he, hor⟩
        have he2 : "URL is required" = e := Except.error.inj he
        rcases hor with h | h <;> rw [← he2] at h <;> exact absurd h (by decide)
      · rintro ⟨hne, _⟩
        exact absurd h0 hne
    · intro u
      constructor
      · intro h
        exact absurd h (by simp)
      · rintro ⟨hne, _, _⟩
        exact absurd h0 hne
  · simp only [normalizeUrl, if_neg h0]
    cases hpr : J.parse (withProtocolOf (jsTrim raw)) with
    | none =>
      simp only [hpr]
      refine ⟨?_, ?_, ?_⟩
      · constructor
        · intro h
          exact absurd (Except.error.inj h) (by decide)
        · intro h
          exact absurd h h0
      · constructor
        · intro _
          exact ⟨h0, Or.inl (by simp)⟩
        · intro _
          exact ⟨"Invalid URL. Provide a valid http(s) URL.", rfl, Or.inl rfl⟩
      · intro u
        constructor
        · intro h
          exact absurd h (by simp)
        · rintro ⟨_, hsome, _⟩
          exact absurd hsome (by simp)
    | some u0 =>
      simp only [hpr]
      by_cases hpro : u0.protocol = "http:" ∨ u0.protocol = "https:"
      · simp only [if_pos hpro]
        refine ⟨?_, ?_, ?_⟩
        · constructor
          · intro h
            exact absurd h (by simp)
          · intro h
            exact absurd h h0
        · constructor
          · rintro ⟨e, he, _⟩
            exact absurd he (by simp)
          · rintro ⟨_, hd⟩
            rcases hd with hnone | ⟨u, hu, hh, hhs⟩
            · exact absurd hnone (by simp)
            · have hu2 : u0 = u := Option.some.inj hu
              rw [← hu2] at hh hhs
              rcases hpro with h5 | h5
              · exact absurd h5 hh
              · exact absurd h5 hhs
        · intro u
          constructor
          · intro h
            have hu := Except.ok.inj h
            rw [← hu]
            exact ⟨h0, rfl, hpro⟩
          · rintro ⟨_, hsome, _⟩
            have hu : u0 = u := Option.some.inj hsome
            rw [hu]
      · simp only [if_neg hpro]
        push_neg at hpro
        refine ⟨?_, ?_, ?_⟩
        · constructor
          · intro h
            exact absurd (Except.error.inj h) (by decide)
          · intro h
            exact absurd h h0
        · constructor
          · intro _
            exact ⟨h0, Or.inr ⟨u0, rfl, hpro.1, hpro.2⟩⟩
          · intro _
            exact ⟨"Only HTTP/HTTPS protocols are allowed.", rfl, Or.inr rfl⟩
        · intro u
          constructor
          · intro h
            exact absurd h (by simp)
          · rintro ⟨_, hsome, hor⟩
            have hu : u0 = u := Option.some.inj hsome
            rw [← hu] at hor
            rcases hor with h5 | h5
            · exact absurd h5 hpro.1
            · exact absurd h5 hpro.2

theorem normalize_url_characterization_witness :
    (normalizeUrl envW "x.com" = .error "URL is required" ↔ jsTrim "x.com" = "") ∧
    (∀ u, normalizeUrl envW "x.com" = .ok u ↔
      (jsTrim "x.com" ≠ "" ∧ envW.parse (withProtocolOf (jsTrim "x.com")) = some u ∧
        (u.protocol = "http:" ∨ u.protocol = "https:"))) :=
  ⟨(normalize_url_characterization envW "x.com").1,
    (normalize_url_characterization envW "x.com").2.2⟩

/-- C10 (implicit behavior): a phone taken from a tel anchor href and an
email taken from a mailto anchor href are added verbatim to the page record
and reach the global sets, bypassing the eight-digit filter and the email
regex, which apply only to body-text matches; the value 123 has three
digits, under the eight-digit floor, yet appears in phones and in
global.phones, for every body-text oracle. -/
theorem tel_mailto_bypass_filters (J : JsEnv) (w : CrawlWorld) (targetUrl : JsUrl)
    (homePm : PageModel) (curUrl : JsUrl)
    (hn : normalizeUrl J w.input = .ok targetUrl)
    (hs : w.seedNav = some homePm)
    (hp : J.parse homePm.locationHref = some curUrl)
    (htel : "tel:123" ∈ homePm.telHrefs)
    (hmail : "mailto:a@b" ∈ homePm.mailtoHrefs) :
    "123" ∈ (extractPageContent J homePm).phones ∧
    "a@b" ∈ (extractPageContent J homePm).emails ∧
    digitCount "123" < 8 ∧
    ∃ r, deepCrawl J w = .ok r ∧ "123" ∈ r.globalPhones ∧ "a@b" ∈ r.globalEmails := by
  have hph : "123" ∈ (extractPageContent J homePm).phones := by
    simp only [extractPageContent]
    rw [mem_jsSetDedup]
    apply List.mem_append_right
    exact List.mem_filterMap.mpr ⟨"tel:123", htel, by decide⟩
  have hem : "a@b" ∈ (extractPageContent J homePm).emails := by
    simp only [extractPageContent]
    rw [mem_jsSetDedup]
    apply List.mem_append_right
    exact List.mem_filterMap.mpr ⟨"mailto:a@b", hmail, by decide⟩
  refine ⟨hph, hem, by decide, mkReport J w targetUrl homePm curUrl,
    deepCrawl_ok J w targetUrl homePm curUrl hn hs hp, ?_, ?_⟩
  · simp only [mkReport]
    rw [mem_jsSetDedup]
    exact List.mem_flatMap.mpr ⟨extractPageContent J homePm, by simp [crawlPages], hph⟩
  · simp only [mkReport]
    rw [mem_jsSetDedup]
    exact List.mem_flatMap.mpr ⟨extractPageContent J homePm, by simp [crawlPages], hem⟩

theorem tel_mailto_bypass_filters_witness :
    ("tel:123" ∈ pmHome.telHrefs ∧ "mailto:a@b" ∈ pmHome.mailtoHrefs) ∧
    ("123" ∈ (extractPageContent envW pmHome).phones ∧
      "a@b" ∈ (extractPageContent envW pmHome).emails ∧
      digitCount "123" < 8 ∧
      ∃ r, deepCrawl envW worldW = .ok r ∧ "123" ∈ r.globalPhones ∧
        "a@b" ∈ r.globalEmails) :=
  ⟨⟨by decide, by decide⟩,
    tel_mailto_bypass_filters envW worldW urlRoot pmHome urlRoot rfl rfl rfl
      (by decide) (by decide)⟩
